import Mathlib

/-!
# Verification of the mdJournal schedule/todo engine

Shallow embedding of the markdown daily-report engine of the mdJournal
repository: the report parser (`parseReportFromMarkdown` and its helpers),
the report edit operations (`toggleTodoStatus`, `addScheduleItem`,
`updateScheduleItem`, `applyRoutine`, `copyPlanToResult`) and the timeline
drag engine (`calculateNewTime`, `formatMinutesToTime`, `handleMouseUp`).

Modelling conventions:
* JavaScript strings are modelled as `List Char` (`Str`), so that every
  operation is structurally recursive and kernel-computable.
* JavaScript numbers are modelled as `ℚ` where the source divides
  (pixel offsets, hour heights) and as `ℤ` where the source only ever
  holds whole minutes.  `Math.round` is `jsRound`, `Math.floor` on an
  integer quotient is `Int.fdiv`, and the JS `%` is `Int.tmod`.
* The regular expressions of the source are compiled by hand into
  deterministic matchers over `List Char`; the only regex construct that
  requires backtracking in the source patterns is the final
  `\s+(.+)$` tail (greedy whitespace followed by a non-empty rest), which
  `tailCapture` implements, including the case where `(.+)` has to take
  back the last whitespace character.
* `Date.now()`, `Math.random()` id generation and
  `new Date().getFullYear()` are impure; they are passed in as explicit
  parameters (`now`, `freshId`, `cy`).
* `Array.prototype.sort` with the `localeCompare` comparator is modelled
  by a stable insertion sort under code-point order `strLe`; for the
  zero-padded ASCII `"HH:MM"` strings being compared, locale order and
  code-point order agree, and both `Array.prototype.sort` (ES2019+) and
  insertion sort are stable.
-/

namespace MdJournal

/-- JavaScript strings as lists of characters. -/
abbrev Str := List Char

/-- The characters matched by the JS regex class `\s`
(ASCII whitespace, NBSP and the BOM; the rarer Unicode space
characters are omitted, none of them can occur in the claims). -/
def isJsWs (c : Char) : Bool :=
  c == ' ' || c == '\t' || c == '\n' || c == '\r' || c == '\x0b' ||
  c == '\x0c' || c == '\u00A0' || c == '\uFEFF'

/-- The characters matched by the JS regex `.` (without the `s` flag):
everything except line terminators. -/
def isDotChar (c : Char) : Bool :=
  !(c == '\n' || c == '\r' || c == '\u2028' || c == '\u2029')

/-- The characters matched by the JS regex class `\d`. -/
def isDigitChar (c : Char) : Bool :=
  48 ≤ c.toNat && c.toNat ≤ 57

/-- ASCII lower-casing, as JS `/i` matching folds the ASCII keywords used
by the section-header regexes. -/
def charToLower (c : Char) : Char :=
  if 65 ≤ c.toNat && c.toNat ≤ 90 then Char.ofNat (c.toNat + 32) else c

/-- Decimal digits of a natural number, as JS number-to-string coercion. -/
def natToStr (n : ℕ) : Str := Nat.toDigits 10 n

/-- JS `String(n)` for an integral number. -/
def intToStr (n : ℤ) : Str :=
  if n < 0 then '-' :: natToStr n.natAbs else natToStr n.natAbs

/-- JS `line.startsWith(c)` for a single character. -/
def lineStartsWith (line : Str) (c : Char) : Bool :=
  match line with
  | x :: _ => x == c
  | [] => false

/-- JS `line.startsWith("##")`. -/
def startsWithHashHash (line : Str) : Bool :=
  match line with
  | x :: y :: _ => x == '#' && y == '#'
  | _ => false

/-- The JS regex test `/^\s{2,}/` (at least two leading whitespace
characters). -/
def startsWithTwoWs (line : Str) : Bool :=
  match line with
  | a :: b :: _ => isJsWs a && isJsWs b
  | _ => false

/-- JS `content.split('\n')`. -/
def splitLines : Str → List Str
  | [] => [[]]
  | c :: cs =>
    if c == '\n' then [] :: splitLines cs
    else
      match splitLines cs with
      | [] => [[c]]
      | l :: ls => (c :: l) :: ls

/-- JS `lines.join('\n')`. -/
def joinLines : List Str → Str
  | [] => []
  | [l] => l
  | l :: ls => l ++ '\n' :: joinLines ls

/-- Remove trailing JS whitespace. -/
def dropTrailingWs (cs : Str) : Str := (cs.reverse.dropWhile isJsWs).reverse

/-- JS `s.trim()`. -/
def jsTrim (cs : Str) : Str := dropTrailingWs (cs.dropWhile isJsWs)

/-- Lexicographic code-point order on strings; `strLe s t` models
`s.localeCompare(t) <= 0` for the zero-padded ASCII time strings the
comparator is applied to. -/
def strLe : Str → Str → Bool
  | [], _ => true
  | _ :: _, [] => false
  | a :: as, b :: bs =>
    if a.toNat < b.toNat then true
    else if b.toNat < a.toNat then false
    else strLe as bs

/-- The tail `\s+(.+)$` of several source regexes, applied after a fixed
prefix has been consumed: one or more whitespace characters followed by a
captured non-empty rest of `.`-matchable characters running to the end of
the line.  When the maximal whitespace run reaches the end of the line the
greedy `\s+` backtracks by exactly one character, so the capture becomes
the last whitespace character provided it is `.`-matchable. -/
def tailCapture (cs : Str) : Option Str :=
  let ws := cs.takeWhile isJsWs
  let rest := cs.dropWhile isJsWs
  if ws.isEmpty then none
  else if rest.isEmpty then
    match ws.getLast? with
    | some c => if 2 ≤ ws.length && isDotChar c then some [c] else none
    | none => none
  else if rest.all isDotChar then some rest else none

/-- The shape `\d{2}:\d{2}` of a schedule time. -/
def isTimeShape (cs : Str) : Bool :=
  match cs with
  | [a, b, c, d, e] =>
    isDigitChar a && isDigitChar b && c == ':' && isDigitChar d && isDigitChar e
  | _ => false

/-- The shape `\d{4}-\d{2}-\d{2}` of a full date. -/
def isDateShape10 (cs : Str) : Bool :=
  match cs with
  | [a, b, c, d, e, f, g, h, i, j] =>
    isDigitChar a && isDigitChar b && isDigitChar c && isDigitChar d &&
    e == '-' && isDigitChar f && isDigitChar g && h == '-' &&
    isDigitChar i && isDigitChar j
  | _ => false

/-- The shape `\d{2}-\d{2}` of a month-day date. -/
def isDateShape5 (cs : Str) : Bool :=
  match cs with
  | [a, b, c, d, e] =>
    isDigitChar a && isDigitChar b && c == '-' && isDigitChar d && isDigitChar e
  | _ => false

/-- The source regex `/^\*\s+(\d{2}:\d{2})\s+\[([^\]]+)\]\s+(.+)$/`
(a content schedule line), returning the three captures
(time, project, task). -/
def matchScheduleContent (line : Str) : Option (Str × Str × Str) :=
  match line with
  | [] => none
  | c0 :: rest =>
    if c0 == '*' then
      if (rest.takeWhile isJsWs).isEmpty then none
      else
        match rest.dropWhile isJsWs with
        | d1 :: d2 :: cc :: d3 :: d4 :: r2 =>
          if isTimeShape [d1, d2, cc, d3, d4] then
            if (r2.takeWhile isJsWs).isEmpty then none
            else
              match r2.dropWhile isJsWs with
              | [] => none
              | c1 :: r4 =>
                if c1 == '[' then
                  let proj := r4.takeWhile (fun ch => !(ch == ']'))
                  if proj.isEmpty then none
                  else
                    match r4.dropWhile (fun ch => !(ch == ']')) with
                    | [] => none
                    | c2 :: r6 =>
                      if c2 == ']' then
                        match tailCapture r6 with
                        | some task => some ([d1, d2, cc, d3, d4], proj, task)
                        | none => none
                      else none
                else none
          else none
        | _ => none
    else none

/-- The source regex `/^\*\s+(\d{2}:\d{2})\s*$/` (a bare end-time line),
returning the captured time. -/
def matchScheduleBare (line : Str) : Option Str :=
  match line with
  | [] => none
  | c0 :: rest =>
    if c0 == '*' then
      if (rest.takeWhile isJsWs).isEmpty then none
      else
        match rest.dropWhile isJsWs with
        | d1 :: d2 :: cc :: d3 :: d4 :: r2 =>
          if isTimeShape [d1, d2, cc, d3, d4] && r2.all isJsWs then
            some [d1, d2, cc, d3, d4]
          else none
        | _ => none
    else none

/-- Case-insensitive prefix test, folding ASCII case as the `/i` flag does
on the ASCII patterns used here. -/
def ciHasPrefixFold : Str → Str → Bool
  | _, [] => true
  | [], _ :: _ => false
  | c :: cs, p :: ps => charToLower c == charToLower p && ciHasPrefixFold cs ps

/-- The source regexes `/^##\s+\[PLAN\]/i` (and `RESULT`/`TODO`/`NOTE`);
`kw` is the lower-case keyword. -/
def matchSectionHeader (line : Str) (kw : Str) : Bool :=
  match line with
  | [] => false
  | c1 :: r1 =>
    if c1 == '#' then
      match r1 with
      | [] => false
      | c2 :: r2 =>
        if c2 == '#' then
          let ws := r2.takeWhile isJsWs
          let r := r2.dropWhile isJsWs
          !ws.isEmpty && ciHasPrefixFold r ('[' :: kw ++ [']'])
        else false
    else false

/-- The source regex `/^###\s+(.+)$/` (a todo project sub-heading),
returning the capture. -/
def matchProjectHeader (line : Str) : Option Str :=
  match line with
  | [] => none
  | c1 :: r1 =>
    if c1 == '#' then
      match r1 with
      | [] => none
      | c2 :: r2 =>
        if c2 == '#' then
          match r2 with
          | [] => none
          | c3 :: r3 => if c3 == '#' then tailCapture r3 else none
        else none
    else none

/-- The character class `[xX\s*\->]` of the todo status mark. -/
def isStatusMarkChar (c : Char) : Bool :=
  c == 'x' || c == 'X' || isJsWs c || c == '*' || c == '-' || c == '>'

/-- The source regex `/^-\s+\[([xX\s*\->])\]\s+(.+)$/` (a todo line),
returning the status mark and the remaining text. -/
def matchTodoLine (line : Str) : Option (Char × Str) :=
  match line with
  | [] => none
  | c0 :: rest =>
    if c0 == '-' then
      let ws := rest.takeWhile isJsWs
      let r := rest.dropWhile isJsWs
      if ws.isEmpty then none
      else
        match r with
        | c1 :: m :: c2 :: r2 =>
          if c1 == '[' && isStatusMarkChar m && c2 == ']' then
            (tailCapture r2).map (fun t => (m, t))
          else none
        | _ => none
    else none

/-- The source regex `/^\[([^\]]+)\]\s*/` extracting a leading project
token from a todo text; returns the capture and the text with the match
stripped. -/
def extractProject (text : Str) : Option (Str × Str) :=
  match text with
  | [] => none
  | c0 :: r =>
    if c0 == '[' then
      let proj := r.takeWhile (fun ch => !(ch == ']'))
      let r2 := r.dropWhile (fun ch => !(ch == ']'))
      if proj.isEmpty then none
      else
        match r2 with
        | c1 :: r3 => if c1 == ']' then some (proj, r3.dropWhile isJsWs) else none
        | [] => none
    else none

/-- The source regex `/^(!!!|!!|!)\s*/` extracting a leading priority
marker (alternatives tried longest first); returns the priority name and
the stripped text. -/
def extractPriority (text : Str) : Option (Str × Str) :=
  match text with
  | '!' :: '!' :: '!' :: r => some ("high".toList, r.dropWhile isJsWs)
  | '!' :: '!' :: r => some ("medium".toList, r.dropWhile isJsWs)
  | '!' :: r => some ("low".toList, r.dropWhile isJsWs)
  | _ => none

/-- The source search `/\s*@(\d{4}-\d{2}-\d{2}|\d{2}-\d{2})$/`: a deadline
token at the end of the text.  The two date alternatives are mutually
exclusive at a fixed position, and the leftmost match simply extends the
`\s*` to the maximal whitespace run before the `@`, which the source then
strips along with the token. -/
def extractDeadlineEnd (text : Str) : Option (Str × Str) :=
  let n := text.length
  if decide (11 ≤ n) && isDateShape10 (text.drop (n - 10)) &&
      ((text.take (n - 10)).getLast? == some '@') then
    some (text.drop (n - 10), dropTrailingWs (text.take (n - 11)))
  else if decide (6 ≤ n) && isDateShape5 (text.drop (n - 5)) &&
      ((text.take (n - 5)).getLast? == some '@') then
    some (text.drop (n - 5), dropTrailingWs (text.take (n - 6)))
  else none

/-- The source regex `/^@(\d{4}-\d{2}-\d{2}|\d{2}-\d{2})\s*/`: a deadline
token at the start of the text (full date tried first). -/
def extractDeadlineStart (text : Str) : Option (Str × Str) :=
  match text with
  | [] => none
  | c0 :: r =>
    if c0 == '@' then
      if isDateShape10 (r.take 10) then
        some (r.take 10, (r.drop 10).dropWhile isJsWs)
      else if isDateShape5 (r.take 5) then
        some (r.take 5, (r.drop 5).dropWhile isJsWs)
      else none
    else none

/-! ## Data model (client `types`) -/

/-- The `ScheduleItem` record of the source: one line of the PLAN or RESULT section.
An item with empty `project` and empty `task` is a bare-time marker. -/
structure ScheduleItem where
  id : Str
  time : Str
  project : Str
  task : Str
deriving DecidableEq

/-- The `TodoItem` record of the source.  The runtime value of `status` is one of the
strings `"pending"`, `"in_progress"`, `"completed"`, `"on_hold"`, and
`priority` one of `"high"`, `"medium"`, `"low"`; they are modelled as the
raw strings so that the defensive fallbacks of the source
(`nextStatus[t.status] || 'pending'`) stay visible. -/
structure TodoItem where
  id : Str
  status : Str
  project : Str
  task : Str
  description : Option Str
  deadline : Option Str
  priority : Option Str
deriving DecidableEq

/-- The `DailyReport` record of the source. -/
structure DailyReport where
  date : Str
  author : Str
  plan : List ScheduleItem
  result : List ScheduleItem
  todos : List TodoItem
  notes : Str
deriving DecidableEq

/-- Source `createEmptyReport`. -/
def createEmptyReport (date : Str) : DailyReport :=
  ⟨date, [], [], [], [], []⟩

/-! ## The report parser (`parseReportFromMarkdown`) -/

/-- Source `parseStatusMark`: `mark.toLowerCase()` switched over
`x` / `*` / `-` / `>` with a `pending` default (the mark is the single
character captured by the todo-line regex). -/
def parseStatusMark (mark : Char) : Str :=
  let m := charToLower mark
  if m == 'x' then "completed".toList
  else if m == '*' then "in_progress".toList
  else if m == '-' then "on_hold".toList
  else if m == '>' then "on_hold".toList
  else "pending".toList

/-- The todo-item construction inside the parse loop: extract, in order, a
leading `[PROJECT]` token, a leading priority marker, a deadline (end of
text checked first, then start), complete a 5-character `MM-DD` deadline
with the current year `cy`, and trim the rest into the task. -/
def buildTodo (cy : ℕ) (i : ℕ) (currentTodoProject : Str) (mark : Char)
    (text0 : Str) : TodoItem :=
  let pr := match extractProject text0 with
    | some (p, r) => (p, r)
    | none => (currentTodoProject, text0)
  let prio := match extractPriority pr.2 with
    | some (p, r) => (some p, r)
    | none => (none, pr.2)
  let dl := match extractDeadlineEnd prio.2 with
    | some (d, r) => (some d, r)
    | none =>
      match extractDeadlineStart prio.2 with
      | some (d, r) => (some d, r)
      | none => (none, prio.2)
  let deadline := match dl.1 with
    | some d => if d.length = 5 then some (natToStr cy ++ '-' :: d) else some d
    | none => none
  { id := 't' :: natToStr i
    status := parseStatusMark mark
    project := pr.1
    task := jsTrim dl.2
    description := none
    deadline := deadline
    priority := prio.1 }

/-- The mutable scan state of the source's line loop. -/
structure ParseState where
  report : DailyReport
  currentSection : Str
  currentTodoProject : Str
  noteLines : List Str
deriving DecidableEq

/-- Source `currentSection[0]`: the first character of the section name. -/
def sectionInitial (s : Str) : Str := s.take 1

/-- Push a parsed schedule item onto the list selected by the current
section (`plan` pushes to the plan, otherwise to the result; only called
when the section is `plan` or `result`). -/
def pushScheduleItem (st : ParseState) (item : ScheduleItem) : ParseState :=
  if st.currentSection = "plan".toList then
    { st with report := { st.report with plan := st.report.plan ++ [item] } }
  else
    { st with report := { st.report with result := st.report.result ++ [item] } }

/-- The `lastTodo.description` append of the source, including the JS
truthiness test on the existing description (an empty string is falsy, so
it is overwritten without a joining newline). -/
def updateLastTodoDescription (todos : List TodoItem) (descLine : Str) :
    List TodoItem :=
  match todos.getLast? with
  | none => todos
  | some lastTodo =>
    let newDescription :=
      if lastTodo.description.getD [] = [] then descLine
      else lastTodo.description.getD [] ++ '\n' :: descLine
    todos.dropLast ++ [{ lastTodo with description := some newDescription }]

/-- The PLAN/RESULT branch of the parse loop: a `*` line is matched first
against the content pattern, then against the bare end-time pattern
(which yields a marker with empty project and task); anything else is
skipped. -/
def processScheduleLine (i : ℕ) (st : ParseState) (line : Str) : ParseState :=
  if lineStartsWith line '*' then
    match matchScheduleContent line with
    | some (t, p, k) =>
      pushScheduleItem st ⟨sectionInitial st.currentSection ++ natToStr i, t, p, k⟩
    | none =>
      match matchScheduleBare line with
      | some t =>
        pushScheduleItem st
          ⟨"break".toList ++ sectionInitial st.currentSection ++ natToStr i, t, [], []⟩
      | none => st
  else st

/-- The TODO branch of the parse loop: a `-` line matching the todo
pattern appends a new todo; otherwise a line with at least two leading
whitespace characters is appended to the description of the last todo, if
there is one. -/
def processTodoLine (cy i : ℕ) (st : ParseState) (line : Str) : ParseState :=
  match (if lineStartsWith line '-' then matchTodoLine line else none) with
  | some (mark, text0) =>
    { st with report :=
        { st.report with todos :=
            st.report.todos ++ [buildTodo cy i st.currentTodoProject mark text0] } }
  | none =>
    if startsWithTwoWs line && !st.report.todos.isEmpty then
      { st with report :=
          { st.report with todos :=
              updateLastTodoDescription st.report.todos (jsTrim line) } }
    else st

/-- One iteration of the source's `for` loop over lines: section headers
are detected first, then the branch of the current section runs.  The
per-section guards of the source are mutually exclusive, so the sequential
`if`/`continue` structure of the source is equivalent to this chain. -/
def processLine (cy i : ℕ) (st : ParseState) (line : Str) : ParseState :=
  if matchSectionHeader line "plan".toList then
    { st with currentSection := "plan".toList }
  else if matchSectionHeader line "result".toList then
    { st with currentSection := "result".toList }
  else if matchSectionHeader line "todo".toList then
    { st with currentSection := "todo".toList }
  else if matchSectionHeader line "note".toList then
    { st with currentSection := "note".toList }
  else if st.currentSection = "plan".toList ∨ st.currentSection = "result".toList then
    processScheduleLine i st line
  else if st.currentSection = "todo".toList then
    match matchProjectHeader line with
    | some p => { st with currentTodoProject := jsTrim p }
    | none => processTodoLine cy i st line
  else if st.currentSection = "note".toList then
    if !startsWithHashHash line then { st with noteLines := st.noteLines ++ [line] }
    else st
  else st

/-- The lazy author capture of the header regex
`/^#\s+\[日報\]\s+(.+?)\s+(\d{4}-\d{2}-\d{2})/`: grow the author one
`.`-matchable character at a time and stop as soon as a whitespace run
followed by a full date shape follows. -/
def authorScan (acc : Str) : Str → Option Str
  | [] => none
  | c :: rs =>
    if isDotChar c then
      let ws := rs.takeWhile isJsWs
      let r2 := rs.dropWhile isJsWs
      if !ws.isEmpty && isDateShape10 (r2.take 10) then some (acc ++ [c])
      else authorScan (acc ++ [c]) rs
    else none

/-- Backtracking of the greedy `\s+` before the lazy author capture: try
consuming `t` whitespace characters of the maximal run `run` (longest
first), letting the author start inside the run. -/
def authorTryWs (run rest : Str) : ℕ → Option Str
  | 0 => none
  | t + 1 =>
    match authorScan [] (run.drop (t + 1) ++ rest) with
    | some a => some a
    | none => authorTryWs run rest t

/-- The header regex `/^#\s+\[日報\]\s+(.+?)\s+(\d{4}-\d{2}-\d{2})/`
applied to the first line; only the author capture is used. -/
def parseHeaderAuthor (line : Str) : Option Str :=
  match line with
  | [] => none
  | c0 :: rest =>
    if c0 == '#' then
      let ws := rest.takeWhile isJsWs
      let r := rest.dropWhile isJsWs
      if ws.isEmpty then none
      else
        match r with
        | '[' :: '日' :: '報' :: ']' :: r2 =>
          let ws2 := r2.takeWhile isJsWs
          let r3 := r2.dropWhile isJsWs
          if ws2.isEmpty then none else authorTryWs ws2 r3 ws2.length
        | _ => none
    else none

/-- Source `parseReportFromMarkdown`; `cy` is the current calendar
year used to complete two-part deadlines. -/
def parseReportFromMarkdown (cy : ℕ) (date content : Str) : DailyReport :=
  let lines := splitLines content
  let author := match lines.head? with
    | some l0 => (parseHeaderAuthor l0).getD []
    | none => []
  let st0 : ParseState :=
    ⟨{ createEmptyReport date with author := author }, [], "P99".toList, []⟩
  let final := (lines.enum).foldl (fun st p => processLine cy p.1 st p.2) st0
  { final.report with notes := jsTrim (joinLines final.noteLines) }

/-! ## Time-sorting (`.sort((a, b) => a.time.localeCompare(b.time))`) -/

/-- The comparator relation used to sort schedule lists by time. -/
def timeLe (a b : ScheduleItem) : Prop := strLe a.time b.time = true

instance : DecidableRel timeLe := fun _ _ => instDecidableEqBool _ _

/-- The `sort` call of the source on a schedule list: stable sort by the
time comparator (insertion sort is stable, as is `Array.prototype.sort`). -/
def sortByTime (items : List ScheduleItem) : List ScheduleItem :=
  items.insertionSort timeLe

/-- A schedule list sorted ascending by lexicographic comparison of the
time strings. -/
def timeSorted (items : List ScheduleItem) : Prop := items.Sorted timeLe

/-! ## Report edit operations (`useReport`) -/

/-- The `'plan' | 'result'` list selector of the edit operations. -/
inductive ScheduleListType
  | plan
  | result
deriving DecidableEq

/-- Source `type[0]`: the first character of the list-type name. -/
def listTypeInitial : ScheduleListType → Str
  | .plan => ['p']
  | .result => ['r']

/-- Source `report[type]`. -/
def DailyReport.getList (r : DailyReport) : ScheduleListType → List ScheduleItem
  | .plan => r.plan
  | .result => r.result

/-- Source `{ ...report, [type]: items }`. -/
def DailyReport.setList (r : DailyReport) :
    ScheduleListType → List ScheduleItem → DailyReport
  | .plan, l => { r with plan := l }
  | .result, l => { r with result := l }

/-- Source `Omit<ScheduleItem, 'id'>`: the payload of `addScheduleItem`. -/
structure ScheduleItemData where
  time : Str
  project : Str
  task : Str
deriving DecidableEq

/-- Source `Partial<ScheduleItem>`: the update payload of `updateScheduleItem`. -/
structure ScheduleItemPatch where
  id : Option Str
  time : Option Str
  project : Option Str
  task : Option Str
deriving DecidableEq

/-- Source `{ ...item, ...updates }`. -/
def applyPatch (item : ScheduleItem) (p : ScheduleItemPatch) : ScheduleItem :=
  ⟨p.id.getD item.id, p.time.getD item.time,
   p.project.getD item.project, p.task.getD item.task⟩

/-- The status cycle of `toggleTodoStatus` (the `nextStatus` record of the
source, as a partial lookup). -/
def nextStatus (s : Str) : Option Str :=
  if s = "pending".toList then some "in_progress".toList
  else if s = "in_progress".toList then some "completed".toList
  else if s = "completed".toList then some "on_hold".toList
  else if s = "on_hold".toList then some "pending".toList
  else none

/-- Source `nextStatus[t.status] || 'pending'`. -/
def advanceStatus (s : Str) : Str := (nextStatus s).getD "pending".toList

/-- Source `toggleTodoStatus`. -/
def toggleTodoStatus (id : Str) (r : DailyReport) : DailyReport :=
  { r with todos := r.todos.map (fun t =>
      if t.id = id then { t with status := advanceStatus t.status } else t) }

/-- Source `addScheduleItem`; `now` stands for `Date.now()`. -/
def addScheduleItem (now : ℕ) (ty : ScheduleListType) (item : ScheduleItemData)
    (r : DailyReport) : DailyReport :=
  let newItem : ScheduleItem :=
    ⟨listTypeInitial ty ++ natToStr now, item.time, item.project, item.task⟩
  r.setList ty (sortByTime (r.getList ty ++ [newItem]))

/-- Source `updateScheduleItem`. -/
def updateScheduleItem (ty : ScheduleListType) (id : Str)
    (updates : ScheduleItemPatch) (r : DailyReport) : DailyReport :=
  let items := (r.getList ty).map (fun item =>
    if item.id = id then applyPatch item updates else item)
  r.setList ty (sortByTime items)

/-- Source `deleteScheduleItem`. -/
def deleteScheduleItem (ty : ScheduleListType) (id : Str) (r : DailyReport) :
    DailyReport :=
  r.setList ty ((r.getList ty).filter (fun item => !(item.id = id : Bool)))

/-- Source `applyRoutine`; `now` stands for `Date.now()`. -/
def applyRoutine (now : ℕ) (routineItems : List ScheduleItem) (r : DailyReport) :
    DailyReport :=
  let newItems := routineItems.mapIdx (fun index item =>
    { item with id := 'p' :: natToStr now ++ '-' :: natToStr index })
  { r with plan := sortByTime (r.plan ++ newItems) }

/-- Source `copyPlanToResult`; `now` stands for `Date.now()`
(evaluated once per mapped item in the source, modelled as a single
value). -/
def copyPlanToResult (now : ℕ) (r : DailyReport) : DailyReport :=
  { r with result := r.plan.mapIdx (fun index item =>
      { item with id := 'r' :: natToStr now ++ '-' :: natToStr index }) }

/-! ## The timeline drag engine (`useTimelineDrag`) -/

/-- JS `Math.round`: half-way cases round toward positive infinity. -/
def jsRound (q : ℚ) : ℤ := ⌊q + 1 / 2⌋

/-- Source `formatMinutesToTime` (all call sites pass whole
minutes, so the argument is an integer):
``hour = Math.floor(minutes / 60)``, ``min = minutes % 60``, both padded
with `padStart(2, '0')`. -/
def padTwo (n : ℤ) : Str :=
  let s := intToStr n
  if s.length < 2 then List.replicate (2 - s.length) '0' ++ s else s

def formatMinutesToTime (minutes : ℤ) : Str :=
  padTwo (Int.fdiv minutes 60) ++ ':' :: padTwo (Int.tmod minutes 60)

/-- The snapping steps of `calculateNewTime`:
`offsetMinutes = offsetPx / hourHeight * 60`,
`newMinutes = Math.round(startMinutes + offsetMinutes)`,
then `Math.round(newMinutes / snapMinutes) * snapMinutes`. -/
def snappedMinutes (startMinutes : ℤ) (offsetPx hourHeight : ℚ)
    (snapMinutes : ℤ) : ℤ :=
  let offsetMinutes : ℚ := offsetPx / hourHeight * 60
  let newMinutes : ℤ := jsRound ((startMinutes : ℚ) + offsetMinutes)
  jsRound ((newMinutes : ℚ) / (snapMinutes : ℚ)) * snapMinutes

/-- The clamping step of `calculateNewTime`:
`maxMinutes = (startHour + maxHours) * 60` and
`Math.max(0, Math.min(maxMinutes - 60, newMinutes))`. -/
def calculateNewTimeMinutes (startMinutes : ℤ) (offsetPx hourHeight : ℚ)
    (maxHours startHour snapMinutes : ℤ) : ℤ :=
  let maxMinutes := (startHour + maxHours) * 60
  max 0 (min (maxMinutes - 60)
    (snappedMinutes startMinutes offsetPx hourHeight snapMinutes))

/-- Source `calculateNewTime` (its trailing hour/minute formatting
is the body of `formatMinutesToTime`). -/
def calculateNewTime (startMinutes : ℤ) (offsetPx hourHeight : ℚ)
    (maxHours startHour snapMinutes : ℤ) : Str :=
  formatMinutesToTime
    (calculateNewTimeMinutes startMinutes offsetPx hourHeight maxHours
      startHour snapMinutes)

/-- Source `DragState` (`startY` is only used to derive the pixel
offset, which the release handler receives ready-made; the optional
`isBreak` is falsy when absent). -/
structure DragState where
  itemId : Str
  type : ScheduleListType
  startY : ℚ
  startMinutes : ℤ
  isBreak : Bool
  breakDuration : Option ℤ
deriving DecidableEq

/-- The pixel-snapped drag offset computed by `handleMouseMove`:
`snapPx = hourHeight / 4` and
`Math.round(deltaY / snapPx) * snapPx`. -/
def handleMouseMoveOffset (startY clientY hourHeight : ℚ) : ℚ :=
  let deltaY := clientY - startY
  let snapPx := hourHeight / 4
  (jsRound (deltaY / snapPx) : ℚ) * snapPx

/-- Source `dragState.breakDuration || 60` (zero is falsy in JS). -/
def breakDurationOr60 (breakDuration : Option ℤ) : ℤ :=
  match breakDuration with
  | some d => if d = 0 then 60 else d
  | none => 60

/-- The end time computed in the break branch of `handleMouseUp`
(`endMinutes = dragState.startMinutes + (dragState.breakDuration || 60)`
translated by the same offset).  The source uses this value only in the
success message shown to the user. -/
def breakCopyEndTime (dragState : DragState) (dragOffset : ℚ)
    (startHour totalHours : ℤ) (hourHeight : ℚ) (snapMinutes : ℤ) : Str :=
  let endMinutes := dragState.startMinutes + breakDurationOr60 dragState.breakDuration
  if dragOffset ≠ 0 then
    calculateNewTime endMinutes dragOffset hourHeight totalHours startHour snapMinutes
  else formatMinutesToTime endMinutes

/-- Source `handleMouseUp`, as a pure function from the captured
drag state, the accumulated pixel offset, the drop test and the current
report to the updated report; `freshId` stands for the
`` `r${Date.now()}-${Math.random()...}` `` id.  Note that in the break
branch only the single start item is appended: the end marker exists only
in the message text (see `breakCopyEndTime`). -/
def handleMouseUp (dragState : DragState) (dragOffset : ℚ)
    (isDraggingToResult : Bool) (report : DailyReport) (freshId : Str)
    (startHour totalHours : ℤ) (hourHeight : ℚ) (snapMinutes : ℤ) :
    DailyReport :=
  if dragState.type = .plan ∧ isDraggingToResult = true then
    if dragState.isBreak then
      let newTime :=
        if dragOffset ≠ 0 then
          calculateNewTime dragState.startMinutes dragOffset hourHeight
            totalHours startHour snapMinutes
        else formatMinutesToTime dragState.startMinutes
      let breakItem : ScheduleItem := ⟨freshId, newTime, "---".toList, "休憩".toList⟩
      { report with result := sortByTime (report.result ++ [breakItem]) }
    else
      match report.plan.find? (fun item => item.id == dragState.itemId) with
      | some planItem =>
        let newTime :=
          if dragOffset ≠ 0 then
            calculateNewTime dragState.startMinutes dragOffset hourHeight
              totalHours startHour snapMinutes
          else planItem.time
        let newItem : ScheduleItem := ⟨freshId, newTime, planItem.project, planItem.task⟩
        { report with result := sortByTime (report.result ++ [newItem]) }
      | none => report
  else if dragOffset ≠ 0 then
    let newTime :=
      calculateNewTime dragState.startMinutes dragOffset hourHeight totalHours
        startHour snapMinutes
    let items := (report.getList dragState.type).map (fun item =>
      if item.id = dragState.itemId then { item with time := newTime } else item)
    report.setList dragState.type (sortByTime items)
  else report

/-! ## Order properties of the time comparator -/

theorem strLe_total : ∀ s t : Str, strLe s t = true ∨ strLe t s = true
  | [], _ => Or.inl rfl
  | _ :: _, [] => Or.inr rfl
  | a :: as, b :: bs => by
    by_cases hab : a.toNat < b.toNat
    · exact Or.inl (by simp [strLe, hab])
    · by_cases hba : b.toNat < a.toNat
      · exact Or.inr (by simp [strLe, hba])
      · rcases strLe_total as bs with h | h
        · exact Or.inl (by simp [strLe, hab, hba, h])
        · exact Or.inr (by simp [strLe, hab, hba, h])

theorem strLe_trans :
    ∀ s t u : Str, strLe s t = true → strLe t u = true → strLe s u = true
  | [], _, _, _, _ => rfl
  | a :: as, [], _, h, _ => by simp [strLe] at h
  | _ :: _, _ :: _, [], _, h => by simp [strLe] at h
  | a :: as, b :: bs, c :: cs, h1, h2 => by
    simp only [strLe] at h1 h2 ⊢
    by_cases hab : a.toNat < b.toNat <;> by_cases hbc : b.toNat < c.toNat <;>
      simp [hab, hbc] at h1 h2 ⊢
    · exact Or.inl (by omega)
    · rcases h2 with ⟨h2a, h2b⟩
      exact Or.inl (by omega)
    · rcases h1 with ⟨h1a, h1b⟩
      exact Or.inl (by omega)
    · rcases h1 with ⟨h1a, h1b⟩
      rcases h2 with ⟨h2a, h2b⟩
      exact Or.inr ⟨by omega, strLe_trans as bs cs h1b h2b⟩

instance : IsTotal ScheduleItem timeLe :=
  ⟨fun a b => strLe_total a.time b.time⟩

instance : IsTrans ScheduleItem timeLe :=
  ⟨fun a b c => strLe_trans a.time b.time c.time⟩

theorem sortByTime_sorted (items : List ScheduleItem) :
    timeSorted (sortByTime items) :=
  List.sorted_insertionSort timeLe items

theorem sortByTime_perm (items : List ScheduleItem) :
    (sortByTime items).Perm items :=
  List.perm_insertionSort timeLe items

/-! ## Character and scanning lemmas -/

theorem isJsWs_cases {c : Char} (h : isJsWs c = true) :
    c = ' ' ∨ c = '\t' ∨ c = '\n' ∨ c = '\r' ∨ c = '\x0b' ∨ c = '\x0c' ∨
    c = '\u00A0' ∨ c = '\uFEFF' := by
  have h2 := h
  simp only [isJsWs, Bool.or_eq_true, beq_iff_eq] at h2
  tauto

theorem isJsWs_ne_hash {c : Char} (h : isJsWs c = true) : (c == '#') = false := by
  rcases isJsWs_cases h with rfl | rfl | rfl | rfl | rfl | rfl | rfl | rfl <;> decide

theorem isJsWs_ne_dash {c : Char} (h : isJsWs c = true) : (c == '-') = false := by
  rcases isJsWs_cases h with rfl | rfl | rfl | rfl | rfl | rfl | rfl | rfl <;> decide

theorem not_isJsWs_of_isDigitChar {c : Char} (h : isDigitChar c = true) :
    isJsWs c = false := by
  by_contra hw
  rw [Bool.not_eq_false] at hw
  rcases isJsWs_cases hw with rfl | rfl | rfl | rfl | rfl | rfl | rfl | rfl <;>
    simp [isDigitChar] at h

theorem takeWhile_append_stop {p : Char → Bool} {l₁ : Str} (y : Char) (l₂ : Str)
    (h1 : ∀ x ∈ l₁, p x = true) (h2 : p y = false) :
    (l₁ ++ y :: l₂).takeWhile p = l₁ := by
  induction l₁ with
  | nil => simp [List.takeWhile_cons, h2]
  | cons a l ih =>
    have ha := h1 a (by simp)
    simp only [List.cons_append, List.takeWhile_cons, ha, if_true]
    rw [ih (fun x hx => h1 x (by simp [hx]))]

theorem dropWhile_append_stop {p : Char → Bool} {l₁ : Str} (y : Char) (l₂ : Str)
    (h1 : ∀ x ∈ l₁, p x = true) (h2 : p y = false) :
    (l₁ ++ y :: l₂).dropWhile p = y :: l₂ := by
  induction l₁ with
  | nil => simp [List.dropWhile_cons, h2]
  | cons a l ih =>
    have ha := h1 a (by simp)
    simp only [List.cons_append, List.dropWhile_cons, ha, if_true]
    exact ih (fun x hx => h1 x (by simp [hx]))

/-- A successful content match forces the line to start with `*`. -/
theorem matchScheduleContent_star {line : Str} {x : Str × Str × Str}
    (h : matchScheduleContent line = some x) :
    ∃ rest, line = '*' :: rest := by
  match line with
  | [] => simp [matchScheduleContent] at h
  | c0 :: rest =>
    by_cases hc : c0 = '*'
    · exact ⟨rest, by rw [hc]⟩
    · rw [matchScheduleContent.eq_def] at h
      simp [hc] at h

/-- A successful bare match forces the line to start with `*`. -/
theorem matchScheduleBare_star {line : Str} {x : Str}
    (h : matchScheduleBare line = some x) :
    ∃ rest, line = '*' :: rest := by
  match line with
  | [] => simp [matchScheduleBare] at h
  | c0 :: rest =>
    by_cases hc : c0 = '*'
    · exact ⟨rest, by rw [hc]⟩
    · rw [matchScheduleBare.eq_def] at h
      simp [hc] at h

theorem matchSectionHeader_not_hash {c : Char} (h : (c == '#') = false)
    (rest kw : Str) : matchSectionHeader (c :: rest) kw = false := by
  rw [matchSectionHeader.eq_def]
  simp [h]

theorem matchProjectHeader_not_hash {c : Char} (h : (c == '#') = false)
    (rest : Str) : matchProjectHeader (c :: rest) = none := by
  rw [matchProjectHeader.eq_def]
  simp [h]

/-! ## Claim C5: tolerant schedule decoding -/

/-- Claim C5: schedule decoding is total (the parser is a total function
by construction) and tolerant: within a PLAN or RESULT section, a line
matching `* HH:MM [PROJECT] task text` produces a content entry with that
time, project and task (parts 1 and 3), a line matching `* HH:MM` alone
produces a bare-time marker entry with empty project and task (parts 2
and 4), and every line matching neither pattern contributes no schedule
entry (part 5). -/
theorem schedule_decode_tolerant (cy i : ℕ) (st : ParseState) (line : Str)
    (hsec : st.currentSection = "plan".toList ∨
      st.currentSection = "result".toList) :
    (∀ (a b c d : Char) (p : Str) (kc : Char) (ks : Str),
      isDigitChar a = true → isDigitChar b = true → isDigitChar c = true →
      isDigitChar d = true → p ≠ [] → (∀ ch ∈ p, (ch == ']') = false) →
      isJsWs kc = false → (∀ ch ∈ kc :: ks, isDotChar ch = true) →
      matchScheduleContent
          ('*' :: ' ' :: a :: b :: ':' :: c :: d :: ' ' :: '[' ::
            (p ++ ']' :: ' ' :: kc :: ks))
        = some ([a, b, ':', c, d], p, kc :: ks)) ∧
    (∀ a b c d : Char,
      isDigitChar a = true → isDigitChar b = true → isDigitChar c = true →
      isDigitChar d = true →
      matchScheduleBare ['*', ' ', a, b, ':', c, d] = some [a, b, ':', c, d]) ∧
    (∀ t p k, matchScheduleContent line = some (t, p, k) →
      (st.currentSection = "plan".toList →
        (processLine cy i st line).report.plan
          = st.report.plan ++ [⟨'p' :: natToStr i, t, p, k⟩] ∧
        (processLine cy i st line).report.result = st.report.result) ∧
      (st.currentSection = "result".toList →
        (processLine cy i st line).report.result
          = st.report.result ++ [⟨'r' :: natToStr i, t, p, k⟩] ∧
        (processLine cy i st line).report.plan = st.report.plan)) ∧
    (matchScheduleContent line = none → ∀ t, matchScheduleBare line = some t →
      (st.currentSection = "plan".toList →
        (processLine cy i st line).report.plan
          = st.report.plan ++ [⟨"breakp".toList ++ natToStr i, t, [], []⟩] ∧
        (processLine cy i st line).report.result = st.report.result) ∧
      (st.currentSection = "result".toList →
        (processLine cy i st line).report.result
          = st.report.result ++ [⟨"breakr".toList ++ natToStr i, t, [], []⟩] ∧
        (processLine cy i st line).report.plan = st.report.plan)) ∧
    (matchScheduleContent line = none → matchScheduleBare line = none →
      (processLine cy i st line).report.plan = st.report.plan ∧
      (processLine cy i st line).report.result = st.report.result) := by
  refine ⟨?_, ?_, ?_, ?_, ?_⟩
  · intro a b c d p kc ks ha hb hc hd hpne hpch hkc hdot
    have hwa : isJsWs a = false := not_isJsWs_of_isDigitChar ha
    have hT1 : List.takeWhile isJsWs
        (' ' :: a :: b :: ':' :: c :: d :: ' ' :: '[' :: (p ++ ']' :: ' ' :: kc :: ks))
        = [' '] := by
      simp [List.takeWhile_cons, hwa, (by decide : isJsWs ' ' = true)]
    have hD1 : List.dropWhile isJsWs
        (' ' :: a :: b :: ':' :: c :: d :: ' ' :: '[' :: (p ++ ']' :: ' ' :: kc :: ks))
        = a :: b :: ':' :: c :: d :: ' ' :: '[' :: (p ++ ']' :: ' ' :: kc :: ks) := by
      simp [List.dropWhile_cons, hwa, (by decide : isJsWs ' ' = true)]
    have hT2 : List.takeWhile isJsWs (' ' :: '[' :: (p ++ ']' :: ' ' :: kc :: ks))
        = [' '] := by
      simp [List.takeWhile_cons, (by decide : isJsWs ' ' = true),
        (by decide : isJsWs '[' = false)]
    have hD2 : List.dropWhile isJsWs (' ' :: '[' :: (p ++ ']' :: ' ' :: kc :: ks))
        = '[' :: (p ++ ']' :: ' ' :: kc :: ks) := by
      simp [List.dropWhile_cons, (by decide : isJsWs ' ' = true),
        (by decide : isJsWs '[' = false)]
    have hpel : ∀ x ∈ p, (fun ch => !(ch == ']')) x = true := by
      intro x hx; simp [hpch x hx]
    have hTP : List.takeWhile (fun ch => !(ch == ']')) (p ++ ']' :: ' ' :: kc :: ks)
        = p := takeWhile_append_stop _ _ hpel (by decide)
    have hDP : List.dropWhile (fun ch => !(ch == ']')) (p ++ ']' :: ' ' :: kc :: ks)
        = ']' :: ' ' :: kc :: ks := dropWhile_append_stop _ _ hpel (by decide)
    have htc : tailCapture (' ' :: kc :: ks) = some (kc :: ks) := by
      have hTk : List.takeWhile isJsWs (' ' :: kc :: ks) = [' '] := by
        simp [List.takeWhile_cons, hkc, (by decide : isJsWs ' ' = true)]
      have hDk : List.dropWhile isJsWs (' ' :: kc :: ks) = kc :: ks := by
        simp [List.dropWhile_cons, hkc, (by decide : isJsWs ' ' = true)]
      have hdk : isDotChar kc = true := hdot kc (by simp)
      have hds : ∀ ch ∈ ks, isDotChar ch = true := fun ch hch => hdot ch (by simp [hch])
      rw [tailCapture]
      rw [hTk, hDk]
      simp [List.all_eq_true, hdk]
      exact hds
    rw [matchScheduleContent]
    simp only [hT1, hD1]
    rw [if_pos (by decide)]
    rw [if_neg (by decide)]
    simp only [isTimeShape, ha, hb, hc, hd]
    rw [if_pos (by simp)]
    simp only [hT2, hD2]
    rw [if_neg (by decide)]
    rw [if_pos (by decide)]
    simp only [hTP, hDP]
    rw [if_neg (by simp [List.isEmpty_iff, hpne])]
    rw [if_pos (by decide)]
    rw [htc]
  · intro a b c d ha hb hc hd
    have hwa : isJsWs a = false := not_isJsWs_of_isDigitChar ha
    rw [matchScheduleBare]
    have hT : List.takeWhile isJsWs [' ', a, b, ':', c, d] = [' '] := by
      simp [List.takeWhile_cons, hwa, (by decide : isJsWs ' ' = true)]
    have hD : List.dropWhile isJsWs [' ', a, b, ':', c, d] = [a, b, ':', c, d] := by
      simp [List.dropWhile_cons, hwa, (by decide : isJsWs ' ' = true)]
    simp only [hT, hD]
    rw [if_pos (by decide)]
    rw [if_neg (by decide)]
    simp [isTimeShape, ha, hb, hc, hd]
  · intro t p k hm
    obtain ⟨rest, rfl⟩ := matchScheduleContent_star hm
    have hsh : ∀ kw, matchSectionHeader ('*' :: rest) kw = false :=
      fun kw => matchSectionHeader_not_hash (by decide) rest kw
    have hls : lineStartsWith ('*' :: rest) '*' = true := rfl
    constructor
    · intro hplan
      rw [processLine]
      simp only [hsh, Bool.false_eq_true, if_false]
      rw [if_pos (Or.inl hplan)]
      rw [processScheduleLine, hls, if_pos rfl, hm]
      simp only [pushScheduleItem]
      rw [if_pos hplan]
      simp [hplan, sectionInitial, (by decide : List.take 1 "plan".toList = ['p'])]
    · intro hres
      have hne : ¬ st.currentSection = "plan".toList := by rw [hres]; decide
      rw [processLine]
      simp only [hsh, Bool.false_eq_true, if_false]
      rw [if_pos (Or.inr hres)]
      rw [processScheduleLine, hls, if_pos rfl, hm]
      simp only [pushScheduleItem]
      rw [if_neg hne]
      simp [hres, sectionInitial, (by decide : List.take 1 "result".toList = ['r'])]
  · intro hmc t hmb
    obtain ⟨rest, rfl⟩ := matchScheduleBare_star hmb
    have hsh : ∀ kw, matchSectionHeader ('*' :: rest) kw = false :=
      fun kw => matchSectionHeader_not_hash (by decide) rest kw
    have hls : lineStartsWith ('*' :: rest) '*' = true := rfl
    constructor
    · intro hplan
      rw [processLine]
      simp only [hsh, Bool.false_eq_true, if_false]
      rw [if_pos (Or.inl hplan)]
      rw [processScheduleLine, hls, if_pos rfl, hmc, hmb]
      simp only [pushScheduleItem]
      rw [if_pos hplan]
      simp [hplan, sectionInitial, (by decide : List.take 1 "plan".toList = ['p'])]
    · intro hres
      have hne : ¬ st.currentSection = "plan".toList := by rw [hres]; decide
      rw [processLine]
      simp only [hsh, Bool.false_eq_true, if_false]
      rw [if_pos (Or.inr hres)]
      rw [processScheduleLine, hls, if_pos rfl, hmc, hmb]
      simp only [pushScheduleItem]
      rw [if_neg hne]
      simp [hres, sectionInitial, (by decide : List.take 1 "result".toList = ['r'])]
  · intro hmc hmb
    rw [processLine]
    split_ifs with h1 h2 h3 h4 <;> try exact ⟨rfl, rfl⟩
    rw [processScheduleLine]
    by_cases hls : lineStartsWith line '*' = true
    · rw [if_pos hls, hmc, hmb]
      exact ⟨rfl, rfl⟩
    · rw [if_neg hls]
      exact ⟨rfl, rfl⟩

/-- Witness for C5: a concrete state in the PLAN section, with a concrete
content line evaluated by `decide`. -/
theorem schedule_decode_tolerant_witness :
    ((⟨createEmptyReport "d".toList, "plan".toList, "P99".toList, []⟩ :
        ParseState).currentSection = "plan".toList ∨
      (⟨createEmptyReport "d".toList, "plan".toList, "P99".toList, []⟩ :
        ParseState).currentSection = "result".toList) ∧
    matchScheduleContent "* 09:30 [P1] task".toList
      = some ("09:30".toList, "P1".toList, "task".toList) ∧
    (∀ t p k,
      matchScheduleContent "* 09:30 [P1] task".toList = some (t, p, k) →
      ((⟨createEmptyReport "d".toList, "plan".toList, "P99".toList, []⟩ :
          ParseState).currentSection = "plan".toList →
        (processLine 2025 3
            (⟨createEmptyReport "d".toList, "plan".toList, "P99".toList, []⟩ :
              ParseState) "* 09:30 [P1] task".toList).report.plan
          = (⟨createEmptyReport "d".toList, "plan".toList, "P99".toList, []⟩ :
              ParseState).report.plan ++ [⟨'p' :: natToStr 3, t, p, k⟩] ∧
        (processLine 2025 3
            (⟨createEmptyReport "d".toList, "plan".toList, "P99".toList, []⟩ :
              ParseState) "* 09:30 [P1] task".toList).report.result
          = (⟨createEmptyReport "d".toList, "plan".toList, "P99".toList, []⟩ :
              ParseState).report.result) ∧
      ((⟨createEmptyReport "d".toList, "plan".toList, "P99".toList, []⟩ :
          ParseState).currentSection = "result".toList →
        (processLine 2025 3
            (⟨createEmptyReport "d".toList, "plan".toList, "P99".toList, []⟩ :
              ParseState) "* 09:30 [P1] task".toList).report.result
          = (⟨createEmptyReport "d".toList, "plan".toList, "P99".toList, []⟩ :
              ParseState).report.result ++ [⟨'r' :: natToStr 3, t, p, k⟩] ∧
        (processLine 2025 3
            (⟨createEmptyReport "d".toList, "plan".toList, "P99".toList, []⟩ :
              ParseState) "* 09:30 [P1] task".toList).report.plan
          = (⟨createEmptyReport "d".toList, "plan".toList, "P99".toList, []⟩ :
              ParseState).report.plan)) :=
  ⟨Or.inl rfl, by decide,
    (schedule_decode_tolerant 2025 3
      (⟨createEmptyReport "d".toList, "plan".toList, "P99".toList, []⟩ :
        ParseState) "* 09:30 [P1] task".toList (Or.inl rfl)).2.2.1⟩

/-! ## Claim C6: todo extraction order -/

/-- Claim C6: todo decoding extracts, in order, the project token, the
priority marker (longest first), the deadline (end of text first, then
start), and trims the rest into the task, completing a two-part `@MM-DD`
deadline with the current year.  In particular
`- [ ] [P34] !! review @12-25` decodes to a pending, medium-priority todo
for project `P34` with task `review` and deadline `<cy>-12-25`; a line
with a deadline token at both ends keeps the end one (the start token
stays in the task); and `!!!` is read as high priority rather than `!`. -/
theorem todo_line_decode (cy : ℕ) :
    (parseReportFromMarkdown cy "2025-06-01".toList
        "## [TODO]\n- [ ] [P34] !! review @12-25".toList).todos
      = [⟨'t' :: natToStr 1, "pending".toList, "P34".toList, "review".toList,
          none, some (natToStr cy ++ '-' :: "12-25".toList),
          some "medium".toList⟩] ∧
    (parseReportFromMarkdown cy "2025-06-01".toList
        "## [TODO]\n- [ ] @01-02 fix @03-04".toList).todos
      = [⟨'t' :: natToStr 1, "pending".toList, "P99".toList,
          "@01-02 fix".toList, none,
          some (natToStr cy ++ '-' :: "03-04".toList), none⟩] ∧
    (parseReportFromMarkdown cy "2025-06-01".toList
        "## [TODO]\n- [ ] !!! urgent".toList).todos
      = [⟨'t' :: natToStr 1, "pending".toList, "P99".toList, "urgent".toList,
          none, none, some "high".toList⟩] :=
  ⟨rfl, rfl, rfl⟩

/-! ## Claim C7: indented description lines -/

/-- Counterexample to claim C7 as stated: in
`## [TODO]` / `- [ ] taskA` / `xyz` / `  cont`, the non-matching line
`xyz` does NOT break the run — the indented line `  cont` is still
attached to `taskA`'s description (the claim predicts it is no longer
attached after the break). -/
theorem todo_description_attaches_after_break_line :
    (parseReportFromMarkdown 2025 "2025-06-01".toList
        "## [TODO]\n- [ ] taskA\nxyz\n  cont".toList).todos
      = [⟨"t1".toList, "pending".toList, "P99".toList, "taskA".toList,
          some "cont".toList, none, none⟩] := by
  decide

/-- Claim C7 (amended): an indented line (two or more leading whitespace
characters) in the TODO section is appended, newline-joined, to the
description of the most recently decoded todo — regardless of intervening
non-matching lines — overwriting rather than joining when the existing
description is empty, and accumulating across consecutive indented
lines. -/
theorem todo_description_appends_to_last (cy i : ℕ) (st : ParseState)
    (a b : Char) (rest : Str) (t : TodoItem) (ts : List TodoItem)
    (hsec : st.currentSection = "todo".toList)
    (hwa : isJsWs a = true) (hwb : isJsWs b = true)
    (hts : st.report.todos = ts ++ [t]) :
    (processLine cy i st (a :: b :: rest)).report.todos
      = ts ++ [{ t with
          description := some
            (if t.description.getD [] = [] then jsTrim (a :: b :: rest)
              else t.description.getD [] ++ '\n' :: jsTrim (a :: b :: rest)) }] ∧
    (processLine cy i st (a :: b :: rest)).report.plan = st.report.plan ∧
    (processLine cy i st (a :: b :: rest)).report.result = st.report.result := by
  have hsh : ∀ kw, matchSectionHeader (a :: b :: rest) kw = false :=
    fun kw => matchSectionHeader_not_hash (isJsWs_ne_hash hwa) (b :: rest) kw
  have hph : matchProjectHeader (a :: b :: rest) = none :=
    matchProjectHeader_not_hash (isJsWs_ne_hash hwa) (b :: rest)
  have hnotplan : ¬ (st.currentSection = "plan".toList ∨
      st.currentSection = "result".toList) := by
    rw [hsec]; rintro (h | h) <;> simp at h
  have hld : lineStartsWith (a :: b :: rest) '-' = false := by
    simp [lineStartsWith, isJsWs_ne_dash hwa]
  have htw : startsWithTwoWs (a :: b :: rest) = true := by
    simp [startsWithTwoWs, hwa, hwb]
  rw [processLine]
  simp only [hsh, Bool.false_eq_true, if_false]
  rw [if_neg hnotplan, if_pos hsec, hph]
  rw [processTodoLine, hld]
  simp only [if_false, Bool.false_eq_true]
  rw [if_pos (by simp [htw, hts])]
  refine ⟨?_, rfl, rfl⟩
  rw [hts, updateLastTodoDescription]
  rw [List.getLast?_concat, List.dropLast_concat]

/-- Witness for C7 (amended): a concrete todo-section state whose last
todo already has the description `x`; the indented line `  more` appends
with a newline. -/
theorem todo_description_appends_to_last_witness :
    (⟨⟨"d".toList, [], [], [],
        [⟨"t1".toList, "pending".toList, "P99".toList, "taskA".toList,
          some "x".toList, none, none⟩], []⟩,
       "todo".toList, "P99".toList, []⟩ : ParseState).currentSection
      = "todo".toList ∧
    isJsWs ' ' = true ∧
    (processLine 2025 7
        (⟨⟨"d".toList, [], [], [],
            [⟨"t1".toList, "pending".toList, "P99".toList, "taskA".toList,
              some "x".toList, none, none⟩], []⟩,
           "todo".toList, "P99".toList, []⟩ : ParseState)
        (' ' :: ' ' :: "more".toList)).report.todos
      = [⟨"t1".toList, "pending".toList, "P99".toList, "taskA".toList,
          some "x\nmore".toList, none, none⟩] :=
  ⟨rfl, by decide, by
    exact (todo_description_appends_to_last 2025 7
      (⟨⟨"d".toList, [], [], [],
          [⟨"t1".toList, "pending".toList, "P99".toList, "taskA".toList,
            some "x".toList, none, none⟩], []⟩,
         "todo".toList, "P99".toList, []⟩ : ParseState)
      ' ' ' ' "more".toList
      ⟨"t1".toList, "pending".toList, "P99".toList, "taskA".toList,
        some "x".toList, none, none⟩ []
      rfl (by decide) (by decide) rfl).1⟩

/-! ## Claims C2 and C3: drag snapping and clamping -/

/-- Claim C2: dragging an entry at `09:00` (540 minutes) by a pixel delta
equivalent to +37 minutes (37 px at 60 px/hour) with `snapMinutes = 15`
first rounds the raw sum to 577 whole minutes, then snaps to the nearest
multiple of 15 (570), then clamps — giving `09:30` (not `09:45`, which
snapping the delta before adding would give). -/
theorem calculateNewTime_snap_then_clamp :
    calculateNewTimeMinutes 540 37 60 12 8 15 = 570 ∧
    calculateNewTime 540 37 60 12 8 15 = "09:30".toList := by
  have h1 : jsRound (((540 : ℤ) : ℚ) + 37 / 60 * 60) = 577 := by
    rw [jsRound, Int.floor_eq_iff]
    constructor <;> norm_num
  have h2 : jsRound (((577 : ℤ) : ℚ) / ((15 : ℤ) : ℚ)) = 38 := by
    rw [jsRound, Int.floor_eq_iff]
    constructor <;> norm_num
  have hs : snappedMinutes 540 37 60 15 = 570 := by
    rw [snappedMinutes]
    simp only [h1, h2]
    norm_num
  constructor
  · rw [calculateNewTimeMinutes, hs]
    decide
  · rw [calculateNewTime, calculateNewTimeMinutes, hs]
    decide

/-- Claim C3: the released time in minutes is always clamped to
`[0, (startHour + maxHours) * 60 − 60]` (when that interval is
non-empty, which every real configuration satisfies), and any snapped
value beyond the upper boundary is pinned exactly at the boundary. -/
theorem calculateNewTime_clamped (startMinutes : ℤ) (offsetPx hourHeight : ℚ)
    (maxHours startHour snapMinutes : ℤ)
    (h : 60 ≤ (startHour + maxHours) * 60) :
    0 ≤ calculateNewTimeMinutes startMinutes offsetPx hourHeight maxHours
        startHour snapMinutes ∧
    calculateNewTimeMinutes startMinutes offsetPx hourHeight maxHours
        startHour snapMinutes ≤ (startHour + maxHours) * 60 - 60 ∧
    ((startHour + maxHours) * 60 - 60
        < snappedMinutes startMinutes offsetPx hourHeight snapMinutes →
      calculateNewTimeMinutes startMinutes offsetPx hourHeight maxHours
          startHour snapMinutes = (startHour + maxHours) * 60 - 60) := by
  rw [calculateNewTimeMinutes]
  refine ⟨?_, ?_, ?_⟩ <;> omega

/-- Witness for C3: the default window (`startHour = 8`,
`maxHours = 12`), an entry at 09:00 dragged by +10000 px at 60 px/hour:
the hypothesis holds and the theorem applies. -/
theorem calculateNewTime_clamped_witness :
    (60 ≤ ((8 : ℤ) + 12) * 60) ∧
    (0 ≤ calculateNewTimeMinutes 540 10000 60 12 8 15 ∧
     calculateNewTimeMinutes 540 10000 60 12 8 15 ≤ ((8 : ℤ) + 12) * 60 - 60 ∧
     (((8 : ℤ) + 12) * 60 - 60 < snappedMinutes 540 10000 60 15 →
       calculateNewTimeMinutes 540 10000 60 12 8 15 = ((8 : ℤ) + 12) * 60 - 60)) :=
  ⟨by decide, calculateNewTime_clamped 540 10000 60 12 8 15 (by decide)⟩

/-! ## Claim C1: break copy loses the end marker (code bug) -/

/-- Claim C1 (code bug): releasing a plan break slot (12:00, 60 minutes
long) over the result area appends ONLY the single start entry
(`--- / 休憩` at 12:00) to the result list.  The implied end time 13:00 is
computed (`breakCopyEndTime`) but used only in the success message, so no
second entry is appended and the break length is not preserved — contrary
to the claim, the spec, and the source's own comment
(`休憩終了時刻のマーカーも追加（休憩の長さを保持）`). -/
theorem break_copy_appends_only_start :
    (handleMouseUp ⟨"b1".toList, .plan, 0, 720, true, some 60⟩ 0 true
        ⟨"2025-06-01".toList, [],
          [⟨"p0".toList, "12:00".toList, [], []⟩,
           ⟨"p1".toList, "13:00".toList, [], []⟩], [], [], []⟩
        "f1".toList 8 12 60 15).result
      = [⟨"f1".toList, "12:00".toList, "---".toList, "休憩".toList⟩] ∧
    (handleMouseUp ⟨"b1".toList, .plan, 0, 720, true, some 60⟩ 0 true
        ⟨"2025-06-01".toList, [],
          [⟨"p0".toList, "12:00".toList, [], []⟩,
           ⟨"p1".toList, "13:00".toList, [], []⟩], [], [], []⟩
        "f1".toList 8 12 60 15).plan
      = [⟨"p0".toList, "12:00".toList, [], []⟩,
         ⟨"p1".toList, "13:00".toList, [], []⟩] ∧
    breakCopyEndTime ⟨"b1".toList, .plan, 0, 720, true, some 60⟩ 0 8 12 60 15
      = "13:00".toList := by
  refine ⟨by decide, by decide, by decide⟩

/-! ## Claim C4: plan drag copy to the result area -/

/-- Claim C4: releasing a dragged non-break plan entry over the result
area appends exactly one new entry to the result list (up to the re-sort,
i.e. the new result list is a permutation of the old one plus the copy),
carrying the freshly generated id and the same project and task as the
original; the plan list — and every other report field — is left
unchanged. -/
theorem handleMouseUp_plan_copy (ds : DragState) (dragOffset : ℚ)
    (r : DailyReport) (freshId : Str) (startHour totalHours : ℤ)
    (hourHeight : ℚ) (snapMinutes : ℤ) (planItem : ScheduleItem)
    (hty : ds.type = .plan) (hbr : ds.isBreak = false)
    (hfind : r.plan.find? (fun item => item.id == ds.itemId) = some planItem) :
    (handleMouseUp ds dragOffset true r freshId startHour totalHours
        hourHeight snapMinutes).plan = r.plan ∧
    (handleMouseUp ds dragOffset true r freshId startHour totalHours
        hourHeight snapMinutes).todos = r.todos ∧
    (handleMouseUp ds dragOffset true r freshId startHour totalHours
        hourHeight snapMinutes).notes = r.notes ∧
    (handleMouseUp ds dragOffset true r freshId startHour totalHours
        hourHeight snapMinutes).date = r.date ∧
    (handleMouseUp ds dragOffset true r freshId startHour totalHours
        hourHeight snapMinutes).author = r.author ∧
    (handleMouseUp ds dragOffset true r freshId startHour totalHours
        hourHeight snapMinutes).result.Perm
      (r.result ++ [⟨freshId,
        (if dragOffset ≠ 0 then
          calculateNewTime ds.startMinutes dragOffset hourHeight totalHours
            startHour snapMinutes
         else planItem.time),
        planItem.project, planItem.task⟩]) := by
  rw [handleMouseUp]
  rw [if_pos ⟨hty, rfl⟩]
  simp only [hbr, Bool.false_eq_true, if_false]
  rw [hfind]
  exact ⟨rfl, rfl, rfl, rfl, rfl, sortByTime_perm _⟩

/-- Witness for C4: a zero-delta release of the plan entry `p1` over the
result area, on a report that already has one result entry. -/
theorem handleMouseUp_plan_copy_witness :
    ((⟨"p1".toList, .plan, 0, 540, false, none⟩ : DragState).type
        = ScheduleListType.plan ∧
      (⟨"p1".toList, .plan, 0, 540, false, none⟩ : DragState).isBreak = false ∧
      (⟨"2025-06-01".toList, [],
          [⟨"p1".toList, "09:00".toList, "P1".toList, "taskA".toList⟩],
          [⟨"r0".toList, "08:00".toList, "P0".toList, "z".toList⟩],
          [], []⟩ : DailyReport).plan.find?
          (fun item => item.id ==
            (⟨"p1".toList, .plan, 0, 540, false, none⟩ : DragState).itemId)
        = some ⟨"p1".toList, "09:00".toList, "P1".toList, "taskA".toList⟩) ∧
    (handleMouseUp ⟨"p1".toList, .plan, 0, 540, false, none⟩ 0 true
        ⟨"2025-06-01".toList, [],
          [⟨"p1".toList, "09:00".toList, "P1".toList, "taskA".toList⟩],
          [⟨"r0".toList, "08:00".toList, "P0".toList, "z".toList⟩],
          [], []⟩
        "f1".toList 8 12 60 15).result.Perm
      ([⟨"r0".toList, "08:00".toList, "P0".toList, "z".toList⟩] ++
        [⟨"f1".toList,
          (if (0 : ℚ) ≠ 0 then calculateNewTime 540 0 60 12 8 15
            else "09:00".toList),
          "P1".toList, "taskA".toList⟩]) :=
  ⟨⟨rfl, rfl, by decide⟩,
    (handleMouseUp_plan_copy ⟨"p1".toList, .plan, 0, 540, false, none⟩ 0
      ⟨"2025-06-01".toList, [],
        [⟨"p1".toList, "09:00".toList, "P1".toList, "taskA".toList⟩],
        [⟨"r0".toList, "08:00".toList, "P0".toList, "z".toList⟩], [], []⟩
      "f1".toList 8 12 60 15
      ⟨"p1".toList, "09:00".toList, "P1".toList, "taskA".toList⟩
      rfl rfl (by decide)).2.2.2.2.2⟩

/-! ## Claim C8: every inserting or rewriting operation re-sorts -/

/-- Claim C8: every editing operation that inserts or rewrites a schedule
entry returns a time-sorted list (ascending lexicographic order of the
zero-padded `HH:MM` strings): `addScheduleItem`, `updateScheduleItem`,
`applyRoutine`, and both mutating paths of `handleMouseUp` (the in-place
move and the copy into the result list; its non-mutating paths return the
list unchanged). -/
theorem schedule_ops_time_sorted (now : ℕ) (ty : ScheduleListType)
    (item : ScheduleItemData) (r : DailyReport) (id : Str)
    (updates : ScheduleItemPatch) (routineItems : List ScheduleItem)
    (ds : DragState) (dragOffset : ℚ) (overResult : Bool) (freshId : Str)
    (startHour totalHours : ℤ) (hourHeight : ℚ) (snapMinutes : ℤ) :
    timeSorted ((addScheduleItem now ty item r).getList ty) ∧
    timeSorted ((updateScheduleItem ty id updates r).getList ty) ∧
    timeSorted ((applyRoutine now routineItems r).plan) ∧
    ((handleMouseUp ds dragOffset overResult r freshId startHour totalHours
        hourHeight snapMinutes).plan = r.plan ∨
      timeSorted (handleMouseUp ds dragOffset overResult r freshId startHour
        totalHours hourHeight snapMinutes).plan) ∧
    ((handleMouseUp ds dragOffset overResult r freshId startHour totalHours
        hourHeight snapMinutes).result = r.result ∨
      timeSorted (handleMouseUp ds dragOffset overResult r freshId startHour
        totalHours hourHeight snapMinutes).result) := by
  have hget : ∀ (r' : DailyReport) (ty' : ScheduleListType) (l : List ScheduleItem),
      (r'.setList ty' l).getList ty' = l := by
    intro r' ty' l; cases ty' <;> rfl
  refine ⟨?_, ?_, ?_, ?_⟩
  · rw [addScheduleItem, hget]
    exact sortByTime_sorted _
  · rw [updateScheduleItem, hget]
    exact sortByTime_sorted _
  · rw [applyRoutine]
    exact sortByTime_sorted _
  · rw [handleMouseUp]
    by_cases h1 : ds.type = .plan ∧ overResult = true
    · rw [if_pos h1]
      by_cases hb : ds.isBreak = true
      · rw [if_pos hb]
        exact ⟨Or.inl rfl, Or.inr (sortByTime_sorted _)⟩
      · rw [if_neg hb]
        cases hf : r.plan.find? (fun it => it.id == ds.itemId) with
        | some planItem => exact ⟨Or.inl rfl, Or.inr (sortByTime_sorted _)⟩
        | none => exact ⟨Or.inl rfl, Or.inl rfl⟩
    · rw [if_neg h1]
      by_cases hoff : dragOffset ≠ 0
      · rw [if_pos hoff]
        cases ds.type with
        | plan => exact ⟨Or.inr (sortByTime_sorted _), Or.inl rfl⟩
        | result => exact ⟨Or.inl rfl, Or.inr (sortByTime_sorted _)⟩
      · rw [if_neg hoff]
        exact ⟨Or.inl rfl, Or.inl rfl⟩

/-! ## Claim C9: bulk copy of the plan into the result -/

theorem mapIdx_map_proj {β : Type} (proj : ScheduleItem → β) :
    ∀ (l : List ScheduleItem) (f : ℕ → ScheduleItem → ScheduleItem),
      (∀ i x, proj (f i x) = proj x) → (l.mapIdx f).map proj = l.map proj
  | [], _, _ => rfl
  | a :: l, f, h => by
    rw [List.mapIdx_cons, List.map_cons, List.map_cons, h 0 a,
      mapIdx_map_proj proj l _ (fun i x => h (i + 1) x)]

theorem mapIdx_map_ids :
    ∀ (l : List ScheduleItem) (gen : ℕ → Str),
      (l.mapIdx (fun i x => { x with id := gen i })).map (fun x => x.id)
        = (List.range l.length).map gen
  | [], _ => rfl
  | a :: l, gen => by
    rw [List.mapIdx_cons, List.map_cons, List.length_cons,
      List.range_succ_eq_map, List.map_cons, List.map_map,
      mapIdx_map_ids l (fun i => gen (i + 1))]
    simp [Function.comp]

/-- Claim C9 (implicit): `copyPlanToResult` replaces the whole result
list with copies of all plan entries — same time, project and task, in
the same order — each carrying the freshly generated id
`r<now>-<index>`, discarding every previously existing result entry;
plan, todos, notes, date and author are left unchanged. -/
theorem copyPlanToResult_replaces_result (now : ℕ) (r : DailyReport) :
    (copyPlanToResult now r).result.map (fun it => (it.time, it.project, it.task))
      = r.plan.map (fun it => (it.time, it.project, it.task)) ∧
    (copyPlanToResult now r).result.map (fun it => it.id)
      = (List.range r.plan.length).map
          (fun index => 'r' :: natToStr now ++ '-' :: natToStr index) ∧
    (copyPlanToResult now r).plan = r.plan ∧
    (copyPlanToResult now r).todos = r.todos ∧
    (copyPlanToResult now r).notes = r.notes ∧
    (copyPlanToResult now r).date = r.date ∧
    (copyPlanToResult now r).author = r.author := by
  refine ⟨?_, ?_, rfl, rfl, rfl, rfl, rfl⟩
  · exact mapIdx_map_proj _ r.plan _ (fun i x => rfl)
  · exact mapIdx_map_ids r.plan _

/-! ## Claim C10: the todo status cycle -/

/-- Claim C10 (implicit): toggling a todo's status advances it along the
fixed cycle pending → in_progress → completed → on_hold → pending, four
applications restore any recognized status, any unrecognized status maps
to pending, and the operation changes nothing other than the status field
of the todos whose id matches (every other todo, and every other report
field, is unchanged). -/
theorem toggleTodoStatus_spec (r : DailyReport) (id : Str) :
    (advanceStatus "pending".toList = "in_progress".toList ∧
     advanceStatus "in_progress".toList = "completed".toList ∧
     advanceStatus "completed".toList = "on_hold".toList ∧
     advanceStatus "on_hold".toList = "pending".toList) ∧
    (∀ s : Str, s ∉ ["pending".toList, "in_progress".toList,
        "completed".toList, "on_hold".toList] →
      advanceStatus s = "pending".toList) ∧
    (∀ s ∈ ["pending".toList, "in_progress".toList, "completed".toList,
        "on_hold".toList],
      advanceStatus (advanceStatus (advanceStatus (advanceStatus s))) = s) ∧
    (toggleTodoStatus id r).plan = r.plan ∧
    (toggleTodoStatus id r).result = r.result ∧
    (toggleTodoStatus id r).notes = r.notes ∧
    (toggleTodoStatus id r).date = r.date ∧
    (toggleTodoStatus id r).author = r.author ∧
    List.Forall₂ (fun t t' =>
        (t.id ≠ id → t' = t) ∧
        (t.id = id → t' = { t with status := advanceStatus t.status }))
      r.todos (toggleTodoStatus id r).todos := by
  refine ⟨by refine ⟨?_, ?_, ?_, ?_⟩ <;> decide, ?_, ?_, rfl, rfl, rfl, rfl, rfl, ?_⟩
  · intro s hs
    simp only [List.mem_cons, List.not_mem_nil, or_false, not_or] at hs
    obtain ⟨h1, h2, h3, h4⟩ := hs
    rw [advanceStatus, nextStatus, if_neg h1, if_neg h2, if_neg h3, if_neg h4]
    rfl
  · intro s hs
    fin_cases hs <;> decide
  · show List.Forall₂ _ r.todos (r.todos.map _)
    rw [List.forall₂_map_right_iff]
    refine List.forall₂_same.mpr ?_
    intro t _
    constructor
    · intro hne
      simp [hne]
    · intro heq
      simp [heq]

/-- Witness for C10: on a concrete report, toggling `t1` advances it from
pending to in_progress and leaves the completed todo `t2` untouched. -/
theorem toggleTodoStatus_spec_witness :
    List.Forall₂ (fun t t' =>
        (t.id ≠ "t1".toList → t' = t) ∧
        (t.id = "t1".toList →
          t' = { t with status := advanceStatus t.status }))
      (⟨"d".toList, [], [], [],
        [⟨"t1".toList, "pending".toList, "P1".toList, "a".toList, none, none, none⟩,
         ⟨"t2".toList, "completed".toList, "P2".toList, "b".toList, none, none, none⟩],
        []⟩ : DailyReport).todos
      (toggleTodoStatus "t1".toList
        ⟨"d".toList, [], [], [],
          [⟨"t1".toList, "pending".toList, "P1".toList, "a".toList, none, none, none⟩,
           ⟨"t2".toList, "completed".toList, "P2".toList, "b".toList, none, none, none⟩],
          []⟩).todos ∧
    (toggleTodoStatus "t1".toList
        ⟨"d".toList, [], [], [],
          [⟨"t1".toList, "pending".toList, "P1".toList, "a".toList, none, none, none⟩,
           ⟨"t2".toList, "completed".toList, "P2".toList, "b".toList, none, none, none⟩],
          []⟩).todos
      = [⟨"t1".toList, "in_progress".toList, "P1".toList, "a".toList, none, none, none⟩,
         ⟨"t2".toList, "completed".toList, "P2".toList, "b".toList, none, none, none⟩] :=
  ⟨(toggleTodoStatus_spec
      ⟨"d".toList, [], [], [],
        [⟨"t1".toList, "pending".toList, "P1".toList, "a".toList, none, none, none⟩,
         ⟨"t2".toList, "completed".toList, "P2".toList, "b".toList, none, none, none⟩],
        []⟩ "t1".toList).2.2.2.2.2.2.2.2, by decide⟩

end MdJournal
